import Mathlib

/-!
Verification of the Modbus RTU client engine: the register codec
(`decoder.py`: `DataDecoder.get_register_count`, `DataDecoder.decode_registers`,
which delegates byte handling to the pymodbus `BinaryPayloadDecoder`) and the
transaction layer (`modbus_rtu_client.py`: `_validate_response`, `_read_bits`,
`_read_registers`, `_read_register_value`).

Modelling conventions:
- A register is a `Nat`; the device guarantees values below 2 ^ 16, and
  theorems that depend on the 16-bit bound state it as a hypothesis.
- Python exceptions become `Except ModbusError`.  The repository raises
  `pydantic.ValidationError` for parameter validation (`invalidParameter`),
  `ModbusException` for absent or exception responses (`protocolError`),
  `ModbusException` for propagated transport failures (`transportError`), and
  `ValueError` from the decoder (`decodeError`), matching the error taxonomy
  of the specification.
- The injected transport callable is an explicit function argument, and each
  transaction-layer function also returns the list of transport invocations it
  performed, so that claims about "the transport is (not) invoked" are
  statable.
- IEEE-754 floats are represented by their raw bit patterns (a `Nat` below
  2 ^ 32 or 2 ^ 64): the decoder only moves bytes, so bit-for-bit equality is
  exactly what the code provides.
-/

deriving instance DecidableEq for Except

namespace ModbusRtu

/-- Byte order or word order flag, `pymodbus.constants.Endian`. -/
inductive Endian
  | big
  | little
deriving DecidableEq

/-- The closed enumeration of data types from `decoder.py` (`DataType`). -/
inductive DataType
  | BOOL
  | UINT16
  | UINT32
  | UINT64
  | INT16
  | INT32
  | INT64
  | FLOAT32
  | FLOAT64
  | STRING
deriving DecidableEq

/-- Error taxonomy of the specification, used as the `Except` error type.  The
Python code raises `pydantic.ValidationError` (invalidParameter),
`ModbusException` (protocolError / transportError) and `ValueError`
(decodeError). -/
inductive ModbusError
  | invalidParameter
  | protocolError
  | transportError
  | decodeError
deriving DecidableEq

/-- A decoded typed value.  Floats are carried as their raw IEEE-754 bit
patterns since the codec only moves bytes; strings are carried as their ASCII
byte sequences. -/
inductive Value
  | num (n : Nat)
  | inum (i : Int)
  | f32 (bits : Nat)
  | f64 (bits : Nat)
  | str (bytes : List Nat)
deriving DecidableEq

/-- `struct.pack("!H", r)`: the two big-endian bytes of a 16-bit register.
For a register below 2 ^ 16 this is exact; `pack` would raise for larger
values, which the decoder turns into a decode failure either way. -/
def toBytes2 (r : Nat) : List Nat := [r / 256 % 256, r % 256]

/-- `pack(f"!\x7blen(registers)\x7dH", *registers)` in
`BinaryPayloadDecoder.fromRegisters`: registers flattened to a byte payload,
two big-endian bytes per register. -/
def payloadOf : List Nat → List Nat
  | [] => []
  | r :: rest => toBytes2 r ++ payloadOf rest

/-- Group a byte list into consecutive pairs (an odd trailing byte is dropped;
payloads are always of even length). -/
def chunk2 : List Nat → List (Nat × Nat)
  | a :: b :: rest => (a, b) :: chunk2 rest
  | _ => []

/-- Read one 16-bit word from a byte pair honouring the byte order
(`unpack(byteorder + "H", ...)`).  The same formula also packs a big-endian
byte pair into a register value honouring the byte order, since swapping is an
involution. -/
def wordFrom (bo : Endian) (p : Nat × Nat) : Nat :=
  match bo with
  | .big => p.1 * 256 + p.2
  | .little => p.2 * 256 + p.1

/-- `BinaryPayloadDecoder._unpack_words`: interpret the handle as 16-bit words
per the byte order, reverse the word sequence when the word order is little,
and repack big-endian. -/
def unpackWords (bo wo : Endian) (handle : List Nat) : List Nat :=
  let ws := (chunk2 handle).map (wordFrom bo)
  let ws := match wo with
    | .little => ws.reverse
    | .big => ws
  payloadOf ws

/-- Big-endian value of a byte sequence (`unpack("!I", ...)` and friends). -/
def beNat (bytes : List Nat) : Nat := bytes.foldl (fun a b => a * 256 + b) 0

/-- Two's-complement reading of a `w`-bit unsigned value
(`unpack("!i", ...)` and friends). -/
def toSigned (w : Nat) (v : Nat) : Int :=
  if v < 2 ^ (w - 1) then (v : Int) else (v : Int) - 2 ^ w

/-- Python `str.isspace` on an ASCII byte: the characters stripped by
`str.strip()` with no arguments. -/
def isSpaceByte (b : Nat) : Bool :=
  decide (b = 32 ∨ (9 ≤ b ∧ b ≤ 13) ∨ (28 ≤ b ∧ b ≤ 31))

/-- Plain ASCII byte, as accepted by `bytes.decode("ascii")`. -/
def isAsciiByte (b : Nat) : Bool := decide (b < 128)

/-- Python `str.strip()`: drop leading and trailing whitespace. -/
def stripBytes (s : List Nat) : List Nat :=
  ((s.dropWhile isSpaceByte).reverse.dropWhile isSpaceByte).reverse

/-- `decoder.decode_16bit_uint()` (and `_int`): slice two bytes off the
payload and unpack with the byte order; `struct.unpack` fails when fewer than
two bytes are available. -/
def decode16 (payload : List Nat) (bo : Endian) : Except ModbusError Nat :=
  match payload.take 2 with
  | [a, b] => .ok (wordFrom bo (a, b))
  | _ => .error .decodeError

/-- `decoder.decode_32bit_uint()` / `decode_64bit_uint()` (and the signed and
float variants, which read the same bytes): slice `width` bytes, normalize via
`_unpack_words`, and unpack big-endian; `struct.unpack` fails when fewer than
`width` bytes are available. -/
def decodeWide (width : Nat) (payload : List Nat) (bo wo : Endian) :
    Except ModbusError Nat :=
  if width ≤ payload.length then
    .ok (beNat (unpackWords bo wo (payload.take width)))
  else .error .decodeError

/-- `decoder.decode_string(len(registers) * 2).decode("ascii").strip()`: the
raw payload bytes (no byte or word reordering is applied to strings by
`BinaryPayloadDecoder`), ASCII-validated, then stripped. -/
def decodeStr (payload : List Nat) : Except ModbusError (List Nat) :=
  if payload.all isAsciiByte then .ok (stripBytes payload)
  else .error .decodeError

/-- `DataDecoder.decode_registers` from `decoder.py`: build the payload from
the registers, then dispatch on the data type.  `BOOL` has no branch in the
source and falls through to `raise ValueError(...)`; every exception is caught
and re-raised as `ValueError`, modelled as `decodeError`. -/
def decode_registers (registers : List Nat) (data_type : DataType)
    (byte_order word_order : Endian) : Except ModbusError Value :=
  let payload := payloadOf registers
  match data_type with
  | .UINT16 => (decode16 payload byte_order).map .num
  | .INT16 => (decode16 payload byte_order).map (fun v => .inum (toSigned 16 v))
  | .UINT32 => (decodeWide 4 payload byte_order word_order).map .num
  | .INT32 =>
    (decodeWide 4 payload byte_order word_order).map
      (fun v => .inum (toSigned 32 v))
  | .UINT64 => (decodeWide 8 payload byte_order word_order).map .num
  | .INT64 =>
    (decodeWide 8 payload byte_order word_order).map
      (fun v => .inum (toSigned 64 v))
  | .FLOAT32 => (decodeWide 4 payload byte_order word_order).map .f32
  | .FLOAT64 => (decodeWide 8 payload byte_order word_order).map .f64
  | .STRING => (decodeStr payload).map .str
  | .BOOL => .error .decodeError

/-- `DataDecoder.get_register_count` from `decoder.py`, including the pydantic
validation of `RegisterCountParams`: a negative `string_length` violates
`NonNegativeInt`, and `STRING` with `string_length = 0` is rejected by the
model validator; both raise `pydantic.ValidationError` (`invalidParameter`).
For `STRING`, the source computes `(string_length + 1) // 2`. -/
def get_register_count (data_type : DataType) (string_length : Int) :
    Except ModbusError Nat :=
  if string_length < 0 then .error .invalidParameter
  else if data_type = .STRING ∧ string_length = 0 then .error .invalidParameter
  else
    match data_type with
    | .BOOL => .ok 1
    | .UINT16 => .ok 1
    | .INT16 => .ok 1
    | .UINT32 => .ok 2
    | .INT32 => .ok 2
    | .FLOAT32 => .ok 2
    | .UINT64 => .ok 4
    | .INT64 => .ok 4
    | .FLOAT64 => .ok 4
    | .STRING => .ok ((string_length.toNat + 1) / 2)

/-- Big-endian byte buffer of width `k` for a natural value (the value taken
modulo 2 ^ (8 k)). -/
def natToBytesBE : Nat → Nat → List Nat
  | 0, _ => []
  | k + 1, v => natToBytesBE k (v / 256) ++ [v % 256]

/-- Two's-complement `w`-bit pattern of an integer. -/
def intToBits (w : Nat) (i : Int) : Nat := (i % ((2 : Int) ^ w)).toNat

/-- Modelled from the spec: the repository contains no encode implementation
(only decoding is present in `decoder.py`), so `encode` follows section 4.2 of
the specification: the value becomes a big-endian byte buffer of the type's
fixed width (or the string bytes right-padded to even length with a pad byte),
and the buffer is split into 16-bit registers honouring the same byte order
and word order that decoding uses.  This is the splitting step. -/
def regsFromBuffer (bo wo : Endian) (buffer : List Nat) : List Nat :=
  let ws := chunk2 buffer
  let ws := match wo with
    | .little => ws.reverse
    | .big => ws
  ws.map (wordFrom bo)

/-- Modelled from the spec: `encode(value, data_type, byte_order, word_order)`
as described in section 4.2 — value to fixed-width big-endian buffer (strings
right-padded to even length with a NUL pad byte), buffer to registers per the
orderings.  A value whose shape does not match the data type yields the empty
register list (such pairs are not representable values of the type). -/
def encode_registers (v : Value) (t : DataType) (bo wo : Endian) : List Nat :=
  match t, v with
  | .UINT16, .num n => regsFromBuffer bo wo (natToBytesBE 2 n)
  | .UINT32, .num n => regsFromBuffer bo wo (natToBytesBE 4 n)
  | .UINT64, .num n => regsFromBuffer bo wo (natToBytesBE 8 n)
  | .INT16, .inum i => regsFromBuffer bo wo (natToBytesBE 2 (intToBits 16 i))
  | .INT32, .inum i => regsFromBuffer bo wo (natToBytesBE 4 (intToBits 32 i))
  | .INT64, .inum i => regsFromBuffer bo wo (natToBytesBE 8 (intToBits 64 i))
  | .FLOAT32, .f32 b => regsFromBuffer bo wo (natToBytesBE 4 b)
  | .FLOAT64, .f64 b => regsFromBuffer bo wo (natToBytesBE 8 b)
  | .STRING, .str s =>
    regsFromBuffer bo wo (if s.length % 2 = 1 then s ++ [0] else s)
  | _, _ => []

/-- One invocation of the injected transport callable, with the keyword
arguments the source passes (`address`, `count`, `slave`,
`no_response_expected`). -/
structure TransportCall where
  address : Nat
  count : Nat
  slave : Nat
  noResponse : Bool
deriving DecidableEq

/-- A device response as the transaction layer sees it: either the
distinguished `pymodbus` `ExceptionResponse` or a normal PDU carrying a
payload (bits for coil reads, registers for register reads). -/
inductive Response (α : Type)
  | exceptionResponse
  | pdu (payload : List α)
deriving DecidableEq

/-- Shape of the injected transport callable: arguments as in
`read_function(address=..., count=..., slave=..., no_response_expected=...)`;
it may raise (`Except.error`), return `None`, or return a response object. -/
def TransportFn (α : Type) : Type :=
  Nat → Nat → Nat → Bool → Except ModbusError (Option (Response α))

/-- `ModbusRtuClient._validate_response`: `False` when the response is `None`
or an `ExceptionResponse`, `True` otherwise. -/
def validate_response {α : Type} (response : Option (Response α)) : Bool :=
  match response with
  | none => false
  | some .exceptionResponse => false
  | some (.pdu _) => true

/-- `ModbusRtuClient._read_bits`: invoke the transport; a raised
`ModbusException` is logged and re-raised (it propagates).  On a normal
return: if `no_response_expected`, return `None`; otherwise a response
failing `_validate_response` raises `ModbusException` (`protocolError`), and
a valid response yields `response.bits[:count]`.  The second component
records the transport invocations performed. -/
def read_bits (read_function : TransportFn Bool)
    (address count slave : Nat) (no_response_expected : Bool) :
    Except ModbusError (Option (List Bool)) × List TransportCall :=
  let call : TransportCall :=
    { address := address, count := count, slave := slave
      noResponse := no_response_expected }
  match read_function address count slave no_response_expected with
  | .error e => (.error e, [call])
  | .ok response =>
    if no_response_expected then (.ok none, [call])
    else if validate_response response then
      match response with
      | some (.pdu bits) => (.ok (some (bits.take count)), [call])
      | _ => (.error .protocolError, [call])
    else (.error .protocolError, [call])

/-- `ModbusRtuClient._read_registers`: identical control flow to
`_read_bits`, yielding `response.registers[:count]`. -/
def read_registers (read_function : TransportFn Nat)
    (address count slave : Nat) (no_response_expected : Bool) :
    Except ModbusError (Option (List Nat)) × List TransportCall :=
  let call : TransportCall :=
    { address := address, count := count, slave := slave
      noResponse := no_response_expected }
  match read_function address count slave no_response_expected with
  | .error e => (.error e, [call])
  | .ok response =>
    if no_response_expected then (.ok none, [call])
    else if validate_response response then
      match response with
      | some (.pdu regs) => (.ok (some (regs.take count)), [call])
      | _ => (.error .protocolError, [call])
    else (.error .protocolError, [call])

/-- `ModbusRtuClient.read_holding_register` (with an initialized client): it
forwards to `_read_registers`. -/
def read_holding_register (read_function : TransportFn Nat)
    (address count slave : Nat) (no_response_expected : Bool) :
    Except ModbusError (Option (List Nat)) × List TransportCall :=
  read_registers read_function address count slave no_response_expected

/-- `ModbusRtuClient._read_register_value`: compute the register count, read
that many holding registers (the `no_response_expected` argument of the read
function is left at its default `False`), raise `ModbusException`
(`protocolError`) when the raw result is `None`, otherwise decode.  Every
failure from the registry, the read, or the decoder propagates unchanged. -/
def read_register_value (read_function : TransportFn Nat) (address : Nat)
    (data_type : DataType) (slave : Nat) (string_length : Int)
    (byte_order word_order : Endian) :
    Except ModbusError Value × List TransportCall :=
  match get_register_count data_type string_length with
  | .error e => (.error e, [])
  | .ok count =>
    let r := read_holding_register read_function address count slave false
    match r.1 with
    | .error e => (.error e, r.2)
    | .ok none => (.error .protocolError, r.2)
    | .ok (some regs) =>
      (decode_registers regs data_type byte_order word_order, r.2)

/-- Register count a fixed-width data type requires, `none` for BOOL (which
`decode_registers` cannot decode at all) and STRING (variable width). -/
def requiredRegisters : DataType → Option Nat
  | .UINT16 => some 1
  | .INT16 => some 1
  | .UINT32 => some 2
  | .INT32 => some 2
  | .FLOAT32 => some 2
  | .UINT64 => some 4
  | .INT64 => some 4
  | .FLOAT64 => some 4
  | _ => none

theorem payloadOf_length :
    ∀ regs : List Nat, (payloadOf regs).length = 2 * regs.length
  | [] => rfl
  | r :: rest => by
    simp [payloadOf, toBytes2, payloadOf_length rest]
    omega

theorem payloadOf_cons (r : Nat) (rest : List Nat) :
    payloadOf (r :: rest) = r / 256 % 256 :: r % 256 :: payloadOf rest := rfl

theorem decode16_cons (a b : Nat) (l : List Nat) (bo : Endian) :
    decode16 (a :: b :: l) bo = .ok (wordFrom bo (a, b)) := rfl

theorem decodeWide_short (width : Nat) (payload : List Nat) (bo wo : Endian)
    (h : payload.length < width) :
    decodeWide width payload bo wo = .error .decodeError := by
  have hn : ¬ width ≤ payload.length := by omega
  simp [decodeWide, hn]

theorem decodeWide_long (width : Nat) (payload : List Nat) (bo wo : Endian)
    (h : width ≤ payload.length) :
    decodeWide width payload bo wo =
      .ok (beNat (unpackWords bo wo (payload.take width))) := by
  simp [decodeWide, h]

/-- Claim C7: for every data type other than STRING and every (non-negative,
hence pydantic-valid) string_length, the register count is the constant of the
fixed mapping, independent of string_length: 1 for BOOL/UINT16/INT16, 2 for
UINT32/INT32/FLOAT32, 4 for UINT64/INT64/FLOAT64. -/
theorem register_count_fixed_types (n : Int) (hn : 0 ≤ n) :
    get_register_count .BOOL n = .ok 1 ∧
    get_register_count .UINT16 n = .ok 1 ∧
    get_register_count .INT16 n = .ok 1 ∧
    get_register_count .UINT32 n = .ok 2 ∧
    get_register_count .INT32 n = .ok 2 ∧
    get_register_count .FLOAT32 n = .ok 2 ∧
    get_register_count .UINT64 n = .ok 4 ∧
    get_register_count .INT64 n = .ok 4 ∧
    get_register_count .FLOAT64 n = .ok 4 := by
  have h : ¬ n < 0 := by omega
  refine ⟨?_, ?_, ?_, ?_, ?_, ?_, ?_, ?_, ?_⟩ <;> simp [get_register_count, h]

/-- Witness for C7 at string_length 7. -/
theorem register_count_fixed_types_witness :
    get_register_count .UINT32 7 = .ok 2 ∧ get_register_count .BOOL 7 = .ok 1 :=
  ⟨(register_count_fixed_types 7 (by decide)).2.2.2.1,
   (register_count_fixed_types 7 (by decide)).1⟩

/-- Claim C8: register_count for STRING with n at least 1 is the ceiling of
n / 2, computed in the source as (n + 1) integer-divided by 2; STRING with
string_length 0 fails with InvalidParameter; and a negative string_length
fails with InvalidParameter for every data type. -/
theorem register_count_string_spec :
    (∀ n : Int, 1 ≤ n →
      get_register_count .STRING n = .ok ((n.toNat + 1) / 2)) ∧
    get_register_count .STRING 0 = .error .invalidParameter ∧
    (∀ (t : DataType) (n : Int), n < 0 →
      get_register_count t n = .error .invalidParameter) := by
  refine ⟨?_, by decide, ?_⟩
  · intro n hn
    have h1 : ¬ n < 0 := by omega
    have h2 : ¬ n = 0 := by omega
    simp [get_register_count, h1, h2]
  · intro t n hn
    simp [get_register_count, hn]

/-- Witness for C8: register_count(STRING, 5) is 3 (the spec scenario) and a
negative length is rejected. -/
theorem register_count_string_spec_witness :
    get_register_count .STRING 5 = .ok 3 ∧
    get_register_count .UINT16 (-1) = .error .invalidParameter :=
  ⟨register_count_string_spec.1 5 (by decide),
   register_count_string_spec.2.2 .UINT16 (-1) (by decide)⟩

/-- Claim C2 counterexample: a suppressed (no_response_expected) read whose
injected transport raises a ModbusException does NOT return "no value" — the
failure is logged and re-raised by the source, so it propagates to the
caller.  This refutes the claim for the transport that always raises. -/
theorem read_suppressed_failure_counterexample :
    (read_bits (fun _ _ _ _ => .error .transportError) 0 1 1 true).1 =
      .error .transportError ∧
    (read_bits (fun _ _ _ _ => .error .transportError) 0 1 1 true).1 ≠
      .ok none ∧
    (read_registers (fun _ _ _ _ => .error .transportError) 0 1 1 true).1 =
      .error .transportError ∧
    (read_registers (fun _ _ _ _ => .error .transportError) 0 1 1 true).1 ≠
      .ok none := by
  refine ⟨rfl, by decide, rfl, by decide⟩

/-- Claim C2 (amended): a suppressed bit or register read returns "no value"
whenever the transport invocation returns normally — whatever response object
it returns, including an exception response or None; but when the transport
invocation raises, the exception is re-raised and propagates to the caller. -/
theorem read_suppressed_amended (f : TransportFn Bool) (g : TransportFn Nat)
    (a c s : Nat) :
    (∀ r, f a c s true = .ok r → (read_bits f a c s true).1 = .ok none) ∧
    (∀ e, f a c s true = .error e → (read_bits f a c s true).1 = .error e) ∧
    (∀ r, g a c s true = .ok r → (read_registers g a c s true).1 = .ok none) ∧
    (∀ e, g a c s true = .error e →
      (read_registers g a c s true).1 = .error e) := by
  refine ⟨?_, ?_, ?_, ?_⟩ <;> intro x hx <;> simp [read_bits, read_registers, hx]

/-- Witness for C2 (amended): a transport returning an exception response
still yields "no value" when suppressed; a raising transport propagates. -/
theorem read_suppressed_amended_witness :
    (read_bits (fun _ _ _ _ => .ok (some .exceptionResponse)) 0 1 1 true).1 =
      .ok none ∧
    (read_registers (fun _ _ _ _ => .error .transportError) 0 1 1 true).1 =
      .error .transportError :=
  ⟨(read_suppressed_amended (fun _ _ _ _ => .ok (some .exceptionResponse))
      (fun _ _ _ _ => .ok none) 0 1 1).1 _ rfl,
   (read_suppressed_amended (fun _ _ _ _ => .ok none)
      (fun _ _ _ _ => .error .transportError) 0 1 1).2.2.2 _ rfl⟩

/-- Claim C3 counterexample: a read with count 0 is NOT rejected — the source
performs no count validation at all.  The transport is invoked with count 0,
and with a normal response the call returns an empty list rather than failing
with InvalidParameter. -/
theorem read_count_zero_counterexample :
    (read_bits (fun _ _ _ _ => .ok (some (.pdu []))) 7 0 1 false).1 =
      .ok (some []) ∧
    (read_bits (fun _ _ _ _ => .ok (some (.pdu []))) 7 0 1 false).2 =
      [⟨7, 0, 1, false⟩] ∧
    (read_registers (fun _ _ _ _ => .ok (some (.pdu []))) 7 0 1 false).1 =
      .ok (some []) ∧
    (read_registers (fun _ _ _ _ => .ok (some (.pdu []))) 7 0 1 false).2 =
      [⟨7, 0, 1, false⟩] := by
  refine ⟨rfl, rfl, rfl, rfl⟩

/-- Claim C3 (amended): a bit or register read with count 0 performs no
validation: the injected transport IS invoked (once, with count 0), no
InvalidParameter is raised, and a normal transport response produces an empty
result list. -/
theorem read_count_zero_amended (f : TransportFn Bool) (g : TransportFn Nat)
    (a s : Nat) :
    (read_bits f a 0 s false).2 = [⟨a, 0, s, false⟩] ∧
    (∀ bits, f a 0 s false = .ok (some (.pdu bits)) →
      (read_bits f a 0 s false).1 = .ok (some [])) ∧
    (read_registers g a 0 s false).2 = [⟨a, 0, s, false⟩] ∧
    (∀ regs, g a 0 s false = .ok (some (.pdu regs)) →
      (read_registers g a 0 s false).1 = .ok (some [])) := by
  refine ⟨?_, ?_, ?_, ?_⟩
  · rcases h : f a 0 s false with e | r
    · simp [read_bits, h]
    · rcases r with _ | r
      · simp [read_bits, h, validate_response]
      · rcases r with _ | bits <;> simp [read_bits, h, validate_response]
  · intro bits h
    simp [read_bits, h, validate_response]
  · rcases h : g a 0 s false with e | r
    · simp [read_registers, h]
    · rcases r with _ | r
      · simp [read_registers, h, validate_response]
      · rcases r with _ | regs <;> simp [read_registers, h, validate_response]
  · intro regs h
    simp [read_registers, h, validate_response]

/-- Witness for C3 (amended) at a concrete transport and address. -/
theorem read_count_zero_amended_witness :
    (read_bits (fun _ _ _ _ => .ok (some (.pdu [true]))) 3 0 9 false).1 =
      .ok (some []) ∧
    (read_registers (fun _ _ _ _ => .ok (some (.pdu [5]))) 3 0 9 false).2 =
      [⟨3, 0, 9, false⟩] :=
  ⟨(read_count_zero_amended (fun _ _ _ _ => .ok (some (.pdu [true])))
      (fun _ _ _ _ => .ok none) 3 9).2.1 _ rfl,
   (read_count_zero_amended (fun _ _ _ _ => .ok none)
      (fun _ _ _ _ => .ok (some (.pdu [5]))) 3 9).2.2.1⟩

/-- Claim C4: a non-suppressed bit or register read whose transport returns a
device-exception response, or an absent (None) response, fails with
ProtocolError (the ModbusException raised after _validate_response rejects
the response) and returns no value. -/
theorem read_invalid_response_protocol_error (f : TransportFn Bool)
    (g : TransportFn Nat) (a c s : Nat) :
    (f a c s false = .ok none →
      (read_bits f a c s false).1 = .error .protocolError) ∧
    (f a c s false = .ok (some .exceptionResponse) →
      (read_bits f a c s false).1 = .error .protocolError) ∧
    (g a c s false = .ok none →
      (read_registers g a c s false).1 = .error .protocolError) ∧
    (g a c s false = .ok (some .exceptionResponse) →
      (read_registers g a c s false).1 = .error .protocolError) := by
  refine ⟨?_, ?_, ?_, ?_⟩ <;> intro hx <;>
    simp [read_bits, read_registers, hx, validate_response]

/-- Witness for C4 at concrete transports. -/
theorem read_invalid_response_protocol_error_witness :
    (read_bits (fun _ _ _ _ => .ok (some .exceptionResponse)) 2 3 1 false).1 =
      .error .protocolError ∧
    (read_registers (fun _ _ _ _ => .ok none) 2 3 1 false).1 =
      .error .protocolError :=
  ⟨(read_invalid_response_protocol_error
      (fun _ _ _ _ => .ok (some .exceptionResponse))
      (fun _ _ _ _ => .ok none) 2 3 1).2.1 rfl,
   (read_invalid_response_protocol_error
      (fun _ _ _ _ => .ok (some .exceptionResponse))
      (fun _ _ _ _ => .ok none) 2 3 1).2.2.1 rfl⟩

/-- Claim C9: the typed read computes the register count from the registry,
performs exactly one register read with that count and with suppression off,
maps an absent or device-exception response to ProtocolError, decodes a
normal response, and propagates every registry, transport, or codec failure
unchanged (the decode result, errors included, is returned as is). -/
theorem typed_read_algorithm (f : TransportFn Nat) (a : Nat) (t : DataType)
    (s : Nat) (n : Int) (bo wo : Endian) :
    (∀ e, get_register_count t n = .error e →
      read_register_value f a t s n bo wo = (.error e, [])) ∧
    (∀ c, get_register_count t n = .ok c →
      (read_register_value f a t s n bo wo).2 = [⟨a, c, s, false⟩]) ∧
    (∀ c e, get_register_count t n = .ok c → f a c s false = .error e →
      (read_register_value f a t s n bo wo).1 = .error e) ∧
    (∀ c, get_register_count t n = .ok c → f a c s false = .ok none →
      (read_register_value f a t s n bo wo).1 = .error .protocolError) ∧
    (∀ c, get_register_count t n = .ok c →
      f a c s false = .ok (some .exceptionResponse) →
      (read_register_value f a t s n bo wo).1 = .error .protocolError) ∧
    (∀ c regs, get_register_count t n = .ok c →
      f a c s false = .ok (some (.pdu regs)) →
      (read_register_value f a t s n bo wo).1 =
        decode_registers (regs.take c) t bo wo) := by
  refine ⟨?_, ?_, ?_, ?_, ?_, ?_⟩
  · intro e he
    simp [read_register_value, he]
  · intro c hc
    rcases h : f a c s false with e | r
    · simp [read_register_value, read_holding_register, read_registers, hc, h]
    · rcases r with _ | r
      · simp [read_register_value, read_holding_register, read_registers, hc,
          h, validate_response]
      · rcases r with _ | regs <;>
          simp [read_register_value, read_holding_register, read_registers,
            hc, h, validate_response]
  · intro c e hc h
    simp [read_register_value, read_holding_register, read_registers, hc, h]
  · intro c hc h
    simp [read_register_value, read_holding_register, read_registers, hc, h,
      validate_response]
  · intro c hc h
    simp [read_register_value, read_holding_register, read_registers, hc, h,
      validate_response]
  · intro c regs hc h
    simp [read_register_value, read_holding_register, read_registers, hc, h,
      validate_response]

/-- Witness for C9: a UINT16 typed read against a transport holding the
single register 65 returns the decoded 65, with one unsuppressed call of
count 1. -/
theorem typed_read_algorithm_witness :
    (read_register_value (fun _ _ _ _ => .ok (some (.pdu [65]))) 0 .UINT16 1 0
      .big .big).1 = .ok (.num 65) ∧
    (read_register_value (fun _ _ _ _ => .ok (some (.pdu [65]))) 0 .UINT16 1 0
      .big .big).2 = [⟨0, 1, 1, false⟩] := by
  constructor
  · have h := (typed_read_algorithm (fun _ _ _ _ => .ok (some (.pdu [65]))) 0
      .UINT16 1 0 .big .big).2.2.2.2.2 1 [65] (by decide) rfl
    rw [h]
    decide
  · exact (typed_read_algorithm (fun _ _ _ _ => .ok (some (.pdu [65]))) 0
      .UINT16 1 0 .big .big).2.1 1 (by decide)

/-- Claim C10: register decoding with data type BOOL always fails (the source
has no BOOL branch and raises ValueError), although the registry assigns BOOL
one register; consequently a typed register read requesting BOOL can never
return a value, whatever the transport does. -/
theorem bool_type_never_decodable :
    (∀ (regs : List Nat) (bo wo : Endian),
      decode_registers regs .BOOL bo wo = .error .decodeError) ∧
    (∀ n : Int, 0 ≤ n → get_register_count .BOOL n = .ok 1) ∧
    (∀ (f : TransportFn Nat) (a s : Nat) (n : Int) (bo wo : Endian)
      (v : Value), (read_register_value f a .BOOL s n bo wo).1 ≠ .ok v) := by
  refine ⟨fun _ _ _ => rfl, ?_, ?_⟩
  · intro n hn
    have h : ¬ n < 0 := by omega
    simp [get_register_count, h]
  · intro f a s n bo wo v
    rcases hc : get_register_count .BOOL n with e | c
    · simp [read_register_value, hc]
    · rcases h : f a c s false with e | r
      · simp [read_register_value, read_holding_register, read_registers, hc,
          h]
      · rcases r with _ | r
        · simp [read_register_value, read_holding_register, read_registers,
            hc, h, validate_response]
        · rcases r with _ | regs <;>
            simp [read_register_value, read_holding_register, read_registers,
              hc, h, validate_response, decode_registers]

/-- Witness for C10 at a concrete transport: the typed BOOL read fails even
though the transport supplies a perfectly good register. -/
theorem bool_type_never_decodable_witness :
    get_register_count .BOOL 0 = .ok 1 ∧
    (read_register_value (fun _ _ _ _ => .ok (some (.pdu [1]))) 0 .BOOL 1 0
      .big .big).1 ≠ .ok (.num 1) :=
  ⟨bool_type_never_decodable.2.1 0 (by decide),
   bool_type_never_decodable.2.2 (fun _ _ _ _ => .ok (some (.pdu [1]))) 0 1 0
     .big .big (.num 1)⟩

/-- Claim C5 counterexample: a register sequence LONGER than the type
requires does not fail — the pymodbus payload decoder slices the bytes it
needs from the front of the buffer and ignores the rest.  Two registers
decoded as UINT16 yield the first register; three registers decoded as UINT32
yield the first two.  Only a shorter-than-required sequence fails. -/
theorem decode_wrong_length_counterexample :
    decode_registers [1, 2] .UINT16 .big .big = .ok (.num 1) ∧
    decode_registers [1, 2, 3] .UINT32 .big .big = .ok (.num 65538) ∧
    decode_registers [5] .UINT32 .big .big = .error .decodeError := by
  decide

/-- Claim C5 (amended): for every fixed-width data type, decoding fails with
DecodeError exactly when the register sequence is SHORTER than the required
count; a sequence of at least the required length always decodes without a
length error (a longer sequence silently decodes from a prefix of the
buffer). -/
theorem decode_length_amended (t : DataType) (k : Nat)
    (hk : requiredRegisters t = some k) (regs : List Nat) (bo wo : Endian) :
    (regs.length < k → decode_registers regs t bo wo = .error .decodeError) ∧
    (k ≤ regs.length → ∃ v, decode_registers regs t bo wo = .ok v) := by
  cases t <;> simp [requiredRegisters] at hk <;> subst hk
  case UINT16 =>
    constructor
    · intro h
      rcases regs with _ | ⟨r, rest⟩
      · rfl
      · simp at h
    · intro h
      rcases regs with _ | ⟨r, rest⟩
      · simp at h
      · exact ⟨.num (wordFrom bo (r / 256 % 256, r % 256)), rfl⟩
  case INT16 =>
    constructor
    · intro h
      rcases regs with _ | ⟨r, rest⟩
      · rfl
      · simp at h
    · intro h
      rcases regs with _ | ⟨r, rest⟩
      · simp at h
      · exact ⟨.inum (toSigned 16 (wordFrom bo (r / 256 % 256, r % 256))), rfl⟩
  case UINT32 =>
    constructor
    · intro h
      have hl : (payloadOf regs).length < 4 := by rw [payloadOf_length]; omega
      simp [decode_registers, Except.map, decodeWide_short 4 _ bo wo hl]
    · intro h
      have hl : 4 ≤ (payloadOf regs).length := by rw [payloadOf_length]; omega
      exact ⟨.num (beNat (unpackWords bo wo ((payloadOf regs).take 4))), by
        rw [show decode_registers regs .UINT32 bo wo =
            (decodeWide 4 (payloadOf regs) bo wo).map Value.num from rfl,
          decodeWide_long 4 _ bo wo hl]
        rfl⟩
  case INT32 =>
    constructor
    · intro h
      have hl : (payloadOf regs).length < 4 := by rw [payloadOf_length]; omega
      simp [decode_registers, Except.map, decodeWide_short 4 _ bo wo hl]
    · intro h
      have hl : 4 ≤ (payloadOf regs).length := by rw [payloadOf_length]; omega
      exact ⟨.inum (toSigned 32 (beNat (unpackWords bo wo ((payloadOf regs).take 4)))), by
        rw [show decode_registers regs .INT32 bo wo =
            (decodeWide 4 (payloadOf regs) bo wo).map (fun v => Value.inum (toSigned 32 v)) from rfl,
          decodeWide_long 4 _ bo wo hl]
        rfl⟩
  case FLOAT32 =>
    constructor
    · intro h
      have hl : (payloadOf regs).length < 4 := by rw [payloadOf_length]; omega
      simp [decode_registers, Except.map, decodeWide_short 4 _ bo wo hl]
    · intro h
      have hl : 4 ≤ (payloadOf regs).length := by rw [payloadOf_length]; omega
      exact ⟨.f32 (beNat (unpackWords bo wo ((payloadOf regs).take 4))), by
        rw [show decode_registers regs .FLOAT32 bo wo =
            (decodeWide 4 (payloadOf regs) bo wo).map Value.f32 from rfl,
          decodeWide_long 4 _ bo wo hl]
        rfl⟩
  case UINT64 =>
    constructor
    · intro h
      have hl : (payloadOf regs).length < 8 := by rw [payloadOf_length]; omega
      simp [decode_registers, Except.map, decodeWide_short 8 _ bo wo hl]
    · intro h
      have hl : 8 ≤ (payloadOf regs).length := by rw [payloadOf_length]; omega
      exact ⟨.num (beNat (unpackWords bo wo ((payloadOf regs).take 8))), by
        rw [show decode_registers regs .UINT64 bo wo =
            (decodeWide 8 (payloadOf regs) bo wo).map Value.num from rfl,
          decodeWide_long 8 _ bo wo hl]
        rfl⟩
  case INT64 =>
    constructor
    · intro h
      have hl : (payloadOf regs).length < 8 := by rw [payloadOf_length]; omega
      simp [decode_registers, Except.map, decodeWide_short 8 _ bo wo hl]
    · intro h
      have hl : 8 ≤ (payloadOf regs).length := by rw [payloadOf_length]; omega
      exact ⟨.inum (toSigned 64 (beNat (unpackWords bo wo ((payloadOf regs).take 8)))), by
        rw [show decode_registers regs .INT64 bo wo =
            (decodeWide 8 (payloadOf regs) bo wo).map (fun v => Value.inum (toSigned 64 v)) from rfl,
          decodeWide_long 8 _ bo wo hl]
        rfl⟩
  case FLOAT64 =>
    constructor
    · intro h
      have hl : (payloadOf regs).length < 8 := by rw [payloadOf_length]; omega
      simp [decode_registers, Except.map, decodeWide_short 8 _ bo wo hl]
    · intro h
      have hl : 8 ≤ (payloadOf regs).length := by rw [payloadOf_length]; omega
      exact ⟨.f64 (beNat (unpackWords bo wo ((payloadOf regs).take 8))), by
        rw [show decode_registers regs .FLOAT64 bo wo =
            (decodeWide 8 (payloadOf regs) bo wo).map Value.f64 from rfl,
          decodeWide_long 8 _ bo wo hl]
        rfl⟩

/-- Witness for C5 (amended): UINT32 from one register fails (the claim
scenario), UINT16 from two registers decodes. -/
theorem decode_length_amended_witness :
    decode_registers [5] .UINT32 .big .big = .error .decodeError ∧
    ∃ v, decode_registers [1, 2] .UINT16 .big .big = .ok v :=
  ⟨(decode_length_amended .UINT32 2 rfl [5] .big .big).1 (by decide),
   (decode_length_amended .UINT16 1 rfl [1, 2] .big .big).2 (by decide)⟩

theorem head?_dropWhile_false (p : Nat → Bool) (l : List Nat) (c : Nat)
    (h : (l.dropWhile p).head? = some c) : p c = false := by
  have hm := List.head?_dropWhile_not p l
  rw [h] at hm
  exact hm

/-- Decomposition produced by Python str.strip: the input splits as a
whitespace prefix, the stripped core (which neither starts nor ends with
whitespace), and a whitespace suffix. -/
theorem strip_decomp (s : List Nat) :
    ∃ pre post,
      s = pre ++ stripBytes s ++ post ∧
      (∀ b ∈ pre, isSpaceByte b = true) ∧
      (∀ b ∈ post, isSpaceByte b = true) ∧
      (∀ c, (stripBytes s).head? = some c → isSpaceByte c = false) ∧
      (∀ c, (stripBytes s).getLast? = some c → isSpaceByte c = false) := by
  refine ⟨s.takeWhile isSpaceByte,
    ((s.dropWhile isSpaceByte).reverse.takeWhile isSpaceByte).reverse,
    ?_, ?_, ?_, ?_, ?_⟩
  · have e2 := List.takeWhile_append_dropWhile isSpaceByte
      (s.dropWhile isSpaceByte).reverse
    have e3 : stripBytes s ++
        ((s.dropWhile isSpaceByte).reverse.takeWhile isSpaceByte).reverse =
          s.dropWhile isSpaceByte := by
      rw [stripBytes, ← List.reverse_append, e2, List.reverse_reverse]
    conv_lhs => rw [← List.takeWhile_append_dropWhile isSpaceByte s, ← e3]
    rw [List.append_assoc]
  · intro b hb
    simpa using List.mem_takeWhile_imp hb
  · intro b hb
    rw [List.mem_reverse] at hb
    simpa using List.mem_takeWhile_imp hb
  · intro c hc
    rw [stripBytes, List.head?_reverse] at hc
    have h1 : (s.dropWhile isSpaceByte).reverse.getLast? = some c := by
      conv_lhs =>
        rw [← List.takeWhile_append_dropWhile isSpaceByte
          (s.dropWhile isSpaceByte).reverse]
      rw [List.getLast?_append, hc]
      rfl
    rw [List.getLast?_reverse] at h1
    exact head?_dropWhile_false isSpaceByte s c h1
  · intro c hc
    rw [stripBytes, List.getLast?_reverse] at hc
    exact head?_dropWhile_false isSpaceByte
      (s.dropWhile isSpaceByte).reverse c hc

/-- Claim C6 counterexample: the source strips with Python str.strip, which
removes LEADING whitespace too and does not remove NUL bytes.  Register
0x2041 (bytes " A") decodes to "A", not " A" as the claim (leading bytes
unchanged) requires; register 0x4100 (bytes "A\x00") decodes to "A\x00" with
the trailing NUL pad NOT stripped, not to "A" as the claim requires. -/
theorem string_strip_counterexample :
    decode_registers [0x2041] .STRING .big .big = .ok (.str [0x41]) ∧
    decode_registers [0x2041] .STRING .big .big ≠ .ok (.str [0x20, 0x41]) ∧
    decode_registers [0x4100] .STRING .big .big = .ok (.str [0x41, 0]) ∧
    decode_registers [0x4100] .STRING .big .big ≠ .ok (.str [0x41]) := by
  refine ⟨by decide, by decide, by decide, by decide⟩

/-- Claim C6 (amended): decoding as STRING yields the ASCII bytes of the
payload with leading AND trailing whitespace (Python str.strip semantics)
removed; NUL bytes are not whitespace and are never removed, so trailing NUL
padding remains in the result.  Formally the payload splits as a whitespace
prefix, the returned core (which neither starts nor ends with a whitespace
byte — and NUL, isSpaceByte 0 = false, can therefore end it), and a
whitespace suffix. -/
theorem string_strip_amended (regs : List Nat) (bo wo : Endian)
    (_hreg : ∀ r ∈ regs, r < 65536)
    (hascii : ∀ b ∈ payloadOf regs, b < 128) :
    isSpaceByte 0 = false ∧
    ∃ core pre post,
      decode_registers regs .STRING bo wo = .ok (.str core) ∧
      payloadOf regs = pre ++ core ++ post ∧
      (∀ b ∈ pre, isSpaceByte b = true) ∧
      (∀ b ∈ post, isSpaceByte b = true) ∧
      (∀ c, core.head? = some c → isSpaceByte c = false) ∧
      (∀ c, core.getLast? = some c → isSpaceByte c = false) := by
  refine ⟨rfl, stripBytes (payloadOf regs), ?_⟩
  obtain ⟨pre, post, h1, h2, h3, h4, h5⟩ := strip_decomp (payloadOf regs)
  refine ⟨pre, post, ?_, h1, h2, h3, h4, h5⟩
  have hall : (payloadOf regs).all isAsciiByte = true := by
    rw [List.all_eq_true]
    intro b hb
    simpa [isAsciiByte] using hascii b hb
  simp [decode_registers, decodeStr, hall, Except.map]

/-- Witness for C6 (amended) on the payload " A" (register 0x2041). -/
theorem string_strip_amended_witness :
    isSpaceByte 0 = false ∧
    ∃ core pre post,
      decode_registers [0x2041] .STRING .big .big = .ok (.str core) ∧
      payloadOf [0x2041] = pre ++ core ++ post ∧
      (∀ b ∈ pre, isSpaceByte b = true) ∧
      (∀ b ∈ post, isSpaceByte b = true) ∧
      (∀ c, core.head? = some c → isSpaceByte c = false) ∧
      (∀ c, core.getLast? = some c → isSpaceByte c = false) :=
  string_strip_amended [0x2041] .big .big (by decide) (by decide)

theorem bytes2_eq (v : Nat) : natToBytesBE 2 v = [v / 256 % 256, v % 256] :=
  rfl

theorem bytes4_eq (v : Nat) :
    natToBytesBE 4 v =
      [v / 256 / 256 / 256 % 256, v / 256 / 256 % 256, v / 256 % 256,
        v % 256] := rfl

theorem bytes8_eq (v : Nat) :
    natToBytesBE 8 v =
      [v / 256 / 256 / 256 / 256 / 256 / 256 / 256 % 256,
        v / 256 / 256 / 256 / 256 / 256 / 256 % 256,
        v / 256 / 256 / 256 / 256 / 256 % 256,
        v / 256 / 256 / 256 / 256 % 256,
        v / 256 / 256 / 256 % 256,
        v / 256 / 256 % 256,
        v / 256 % 256,
        v % 256] := rfl

theorem natToBytesBE_length : ∀ k v : Nat, (natToBytesBE k v).length = k
  | 0, _ => rfl
  | k + 1, v => by
    simp [natToBytesBE, natToBytesBE_length k (v / 256)]

theorem natToBytesBE_lt : ∀ (k v : Nat), ∀ b ∈ natToBytesBE k v, b < 256
  | 0, _, b, hb => by simp [natToBytesBE] at hb
  | k + 1, v, b, hb => by
    rw [natToBytesBE, List.mem_append] at hb
    rcases hb with hb | hb
    · exact natToBytesBE_lt k (v / 256) b hb
    · simp at hb
      omega

theorem chunk2_length : ∀ l : List Nat, (chunk2 l).length = l.length / 2
  | [] => rfl
  | [a] => by simp [chunk2]
  | a :: b :: rest => by
    simp [chunk2, chunk2_length rest]
    omega

theorem chunk2_mem :
    ∀ (l : List Nat) (p : Nat × Nat), p ∈ chunk2 l → p.1 ∈ l ∧ p.2 ∈ l
  | [], p, h => by simp [chunk2] at h
  | [a], p, h => by simp [chunk2] at h
  | a :: b :: rest, p, h => by
    rw [chunk2] at h
    rcases List.mem_cons.mp h with rfl | h2
    · exact ⟨List.mem_cons_self _ _,
        List.mem_cons_of_mem _ (List.mem_cons_self _ _)⟩
    · have ih := chunk2_mem rest p h2
      exact ⟨List.mem_cons_of_mem _ (List.mem_cons_of_mem _ ih.1),
        List.mem_cons_of_mem _ (List.mem_cons_of_mem _ ih.2)⟩

/-- Splitting a register back into its two payload bytes and rereading it
with the same byte order recovers the big-endian value of the original byte
pair, whichever byte order is used. -/
theorem wf_inv (bo : Endian) (p : Nat × Nat) (h1 : p.1 < 256)
    (h2 : p.2 < 256) :
    wordFrom bo (wordFrom bo p / 256 % 256, wordFrom bo p % 256) =
      p.1 * 256 + p.2 := by
  rcases p with ⟨a, b⟩
  cases bo <;> simp only [wordFrom] <;> simp at h1 h2 <;> omega

theorem chunk2_payloadOf : ∀ ws : List Nat,
    chunk2 (payloadOf ws) = ws.map (fun w => (w / 256 % 256, w % 256))
  | [] => rfl
  | w :: rest => by
    simp [payloadOf, toBytes2, chunk2, chunk2_payloadOf rest]

/-- Packing the byte pairs of an even-length byte buffer big-endian into
registers and flattening the registers back to a payload is the identity. -/
theorem payloadOf_bePair : ∀ s : List Nat, (∀ c ∈ s, c < 256) →
    s.length % 2 = 0 →
    payloadOf ((chunk2 s).map (fun p => p.1 * 256 + p.2)) = s
  | [], _, _ => rfl
  | [a], _, h => by simp at h
  | a :: b :: rest, hc, h => by
    have ha : a < 256 := hc a (by simp)
    have hb : b < 256 := hc b (by simp)
    have hlen : rest.length % 2 = 0 := by
      simp [List.length_cons] at h
      omega
    have ih := payloadOf_bePair rest
      (fun c hcc => hc c (by simp [hcc])) hlen
    simp [chunk2, payloadOf, toBytes2, ih]
    constructor <;> omega

/-- Core inverse law: flattening the registers produced by the spec-modelled
buffer-to-register packing and running the pymodbus word unpacking with the
same byte and word order recovers the original (even-length) byte buffer. -/
theorem unpack_payload_regs (bo wo : Endian) (buffer : List Nat)
    (hb : ∀ b ∈ buffer, b < 256) (he : buffer.length % 2 = 0) :
    unpackWords bo wo (payloadOf (regsFromBuffer bo wo buffer)) = buffer := by
  cases wo
  · show payloadOf
      ((chunk2 (payloadOf ((chunk2 buffer).map (wordFrom bo)))).map
        (wordFrom bo)) = buffer
    rw [chunk2_payloadOf, List.map_map, List.map_map]
    have hcongr : (chunk2 buffer).map
        ((wordFrom bo ∘ fun w => (w / 256 % 256, w % 256)) ∘ wordFrom bo) =
          (chunk2 buffer).map (fun p => p.1 * 256 + p.2) := by
      apply List.map_congr_left
      intro p hp
      have hm := chunk2_mem buffer p hp
      exact wf_inv bo p (hb _ hm.1) (hb _ hm.2)
    rw [hcongr]
    exact payloadOf_bePair buffer hb he
  · show payloadOf
      (((chunk2 (payloadOf (((chunk2 buffer).reverse).map
        (wordFrom bo)))).map (wordFrom bo)).reverse) = buffer
    rw [chunk2_payloadOf, List.map_map, List.map_map]
    have hcongr : ((chunk2 buffer).reverse).map
        ((wordFrom bo ∘ fun w => (w / 256 % 256, w % 256)) ∘ wordFrom bo) =
          ((chunk2 buffer).reverse).map (fun p => p.1 * 256 + p.2) := by
      apply List.map_congr_left
      intro p hp
      rw [List.mem_reverse] at hp
      have hm := chunk2_mem buffer p hp
      exact wf_inv bo p (hb _ hm.1) (hb _ hm.2)
    rw [hcongr, List.map_reverse, List.reverse_reverse]
    exact payloadOf_bePair buffer hb he

theorem beNat_bytes2 (v : Nat) (h : v < 65536) :
    beNat (natToBytesBE 2 v) = v := by
  rw [bytes2_eq]
  simp only [beNat, List.foldl]
  omega

theorem beNat_bytes4 (v : Nat) (h : v < 4294967296) :
    beNat (natToBytesBE 4 v) = v := by
  rw [bytes4_eq]
  simp only [beNat, List.foldl]
  omega

theorem beNat_bytes8 (v : Nat) (h : v < 18446744073709551616) :
    beNat (natToBytesBE 8 v) = v := by
  rw [bytes8_eq]
  simp only [beNat, List.foldl]
  omega

theorem intToBits16_lt (i : Int) : intToBits 16 i < 65536 := by
  unfold intToBits
  omega

theorem intToBits32_lt (i : Int) : intToBits 32 i < 4294967296 := by
  unfold intToBits
  omega

theorem intToBits64_lt (i : Int) : intToBits 64 i < 18446744073709551616 := by
  unfold intToBits
  omega

theorem toSigned_intToBits16 (i : Int) (h1 : -32768 ≤ i) (h2 : i < 32768) :
    toSigned 16 (intToBits 16 i) = i := by
  simp only [toSigned, intToBits]
  norm_num
  split <;> omega

theorem toSigned_intToBits32 (i : Int) (h1 : -2147483648 ≤ i)
    (h2 : i < 2147483648) : toSigned 32 (intToBits 32 i) = i := by
  simp only [toSigned, intToBits]
  norm_num
  split <;> omega

theorem toSigned_intToBits64 (i : Int) (h1 : -9223372036854775808 ≤ i)
    (h2 : i < 9223372036854775808) : toSigned 64 (intToBits 64 i) = i := by
  simp only [toSigned, intToBits]
  norm_num
  split <;> omega

/-- Round trip of a 2-byte buffer through encode-side register packing and
the 16-bit decode, for every byte order and word order. -/
theorem roundtrip_buffer2 (bo wo : Endian) (v : Nat) (h : v < 65536) :
    decode16 (payloadOf (regsFromBuffer bo wo (natToBytesBE 2 v))) bo =
      .ok v := by
  have hregs : regsFromBuffer bo wo (natToBytesBE 2 v) =
      [wordFrom bo (v / 256 % 256, v % 256)] := by
    cases wo <;> simp [bytes2_eq, regsFromBuffer, chunk2]
  rw [hregs, show payloadOf [wordFrom bo (v / 256 % 256, v % 256)] =
      wordFrom bo (v / 256 % 256, v % 256) / 256 % 256 ::
        wordFrom bo (v / 256 % 256, v % 256) % 256 :: [] from rfl,
    decode16_cons]
  rw [wf_inv bo (v / 256 % 256, v % 256) (by show v / 256 % 256 < 256; omega)
    (by show v % 256 < 256; omega)]
  show (Except.ok (v / 256 % 256 * 256 + v % 256) : Except ModbusError Nat) =
    Except.ok v
  congr 1
  omega

/-- Round trip of a 4-byte buffer through encode-side register packing and
the 32-bit wide decode, for every byte order and word order. -/
theorem roundtrip_buffer4 (bo wo : Endian) (v : Nat) (h : v < 4294967296) :
    decodeWide 4 (payloadOf (regsFromBuffer bo wo (natToBytesBE 4 v))) bo wo =
      .ok v := by
  have hlen : (payloadOf (regsFromBuffer bo wo (natToBytesBE 4 v))).length =
      4 := by
    cases wo <;>
      simp [payloadOf_length, regsFromBuffer, chunk2_length,
        natToBytesBE_length, bytes4_eq, chunk2]
  rw [decodeWide_long 4 _ bo wo (by rw [hlen]),
    List.take_of_length_le (by rw [hlen]),
    unpack_payload_regs bo wo _ (natToBytesBE_lt 4 v)
      (by rw [natToBytesBE_length]),
    beNat_bytes4 v h]

/-- Round trip of an 8-byte buffer through encode-side register packing and
the 64-bit wide decode, for every byte order and word order. -/
theorem roundtrip_buffer8 (bo wo : Endian) (v : Nat)
    (h : v < 18446744073709551616) :
    decodeWide 8 (payloadOf (regsFromBuffer bo wo (natToBytesBE 8 v))) bo wo =
      .ok v := by
  have hlen : (payloadOf (regsFromBuffer bo wo (natToBytesBE 8 v))).length =
      8 := by
    cases wo <;>
      simp [payloadOf_length, regsFromBuffer, chunk2_length,
        natToBytesBE_length, bytes8_eq, chunk2]
  rw [decodeWide_long 8 _ bo wo (by rw [hlen]),
    List.take_of_length_le (by rw [hlen]),
    unpack_payload_regs bo wo _ (natToBytesBE_lt 8 v)
      (by rw [natToBytesBE_length]),
    beNat_bytes8 v h]

theorem dropWhile_eq_self_of_headI (p : Nat → Bool) (l : List Nat)
    (h : p l.headI = false) : l.dropWhile p = l := by
  cases l with
  | nil => rfl
  | cons a t =>
    have h2 : p a = false := h
    simp [List.dropWhile_cons, h2]

theorem stripBytes_eq_self (s : List Nat)
    (hh : isSpaceByte s.headI = false)
    (hr : isSpaceByte s.reverse.headI = false) : stripBytes s = s := by
  rw [stripBytes, dropWhile_eq_self_of_headI _ _ hh,
    dropWhile_eq_self_of_headI _ _ hr, List.reverse_reverse]

/-- String round trip in the one configuration where it holds: big byte and
word order, even length (no pad byte is added), ASCII content, and no
whitespace at either end (str.strip removes nothing). -/
theorem roundtrip_string (s : List Nat) (hascii : ∀ c ∈ s, c < 128)
    (heven : s.length % 2 = 0) (hh : isSpaceByte s.headI = false)
    (hr : isSpaceByte s.reverse.headI = false) :
    decode_registers (encode_registers (.str s) .STRING .big .big) .STRING
      .big .big = .ok (.str s) := by
  have h256 : ∀ c ∈ s, c < 256 := fun c hc => by
    have := hascii c hc
    omega
  have hpad : ¬ s.length % 2 = 1 := by omega
  have henc : encode_registers (.str s) .STRING .big .big =
      regsFromBuffer .big .big s := by
    simp [encode_registers, hpad]
  have hpay : payloadOf (regsFromBuffer .big .big s) = s := by
    show payloadOf ((chunk2 s).map (wordFrom .big)) = s
    have hfun : (chunk2 s).map (wordFrom .big) =
        (chunk2 s).map (fun p => p.1 * 256 + p.2) :=
      List.map_congr_left (fun p _ => rfl)
    rw [hfun]
    exact payloadOf_bePair s h256 heven
  rw [henc,
    show decode_registers (regsFromBuffer .big .big s) .STRING .big .big =
      (decodeStr (payloadOf (regsFromBuffer .big .big s))).map .str from rfl,
    hpay]
  have hall : s.all isAsciiByte = true := by
    rw [List.all_eq_true]
    intro b hb
    simpa [isAsciiByte] using hascii b hb
  simp [decodeStr, hall, stripBytes_eq_self s hh hr, Except.map]

/-- Claim C1 counterexample: the round-trip law fails for STRING.  Encoding
the one-character string "A" pads it with a NUL byte to fill a register, and
decoding strips only whitespace (Python str.strip), not NUL — so the round
trip returns "A\x00", not "A", already with big byte and word order. -/
theorem roundtrip_counterexample :
    decode_registers (encode_registers (.str [65]) .STRING .big .big) .STRING
      .big .big = .ok (.str [65, 0]) ∧
    decode_registers (encode_registers (.str [65]) .STRING .big .big) .STRING
      .big .big ≠ .ok (.str [65]) :=
  ⟨by decide, by decide⟩

/-- Claim C1 (amended): the round-trip law decode(encode(v, t, bo, wo), t,
bo, wo) = v holds for all four byte-order/word-order combinations for the
eight numeric fixed-width types — exactly for integers in range and
bit-for-bit for float bit patterns.  For STRING it holds only with big byte
and word order and only for even-length ASCII values with no leading or
trailing whitespace: an odd-length string comes back with an extra NUL pad
byte (NUL is not stripped), whitespace at the ends is stripped away, and
non-big orders permute the string bytes on encode but not on decode. -/
theorem roundtrip_amended (bo wo : Endian) :
    (∀ n : Nat, n < 65536 →
      decode_registers (encode_registers (.num n) .UINT16 bo wo) .UINT16 bo wo
        = .ok (.num n)) ∧
    (∀ n : Nat, n < 4294967296 →
      decode_registers (encode_registers (.num n) .UINT32 bo wo) .UINT32 bo wo
        = .ok (.num n)) ∧
    (∀ n : Nat, n < 18446744073709551616 →
      decode_registers (encode_registers (.num n) .UINT64 bo wo) .UINT64 bo wo
        = .ok (.num n)) ∧
    (∀ i : Int, -32768 ≤ i → i < 32768 →
      decode_registers (encode_registers (.inum i) .INT16 bo wo) .INT16 bo wo
        = .ok (.inum i)) ∧
    (∀ i : Int, -2147483648 ≤ i → i < 2147483648 →
      decode_registers (encode_registers (.inum i) .INT32 bo wo) .INT32 bo wo
        = .ok (.inum i)) ∧
    (∀ i : Int, -9223372036854775808 ≤ i → i < 9223372036854775808 →
      decode_registers (encode_registers (.inum i) .INT64 bo wo) .INT64 bo wo
        = .ok (.inum i)) ∧
    (∀ b : Nat, b < 4294967296 →
      decode_registers (encode_registers (.f32 b) .FLOAT32 bo wo) .FLOAT32
        bo wo = .ok (.f32 b)) ∧
    (∀ b : Nat, b < 18446744073709551616 →
      decode_registers (encode_registers (.f64 b) .FLOAT64 bo wo) .FLOAT64
        bo wo = .ok (.f64 b)) ∧
    (∀ s : List Nat, (∀ c ∈ s, c < 128) → s.length % 2 = 0 →
      isSpaceByte s.headI = false → isSpaceByte s.reverse.headI = false →
      decode_registers (encode_registers (.str s) .STRING .big .big) .STRING
        .big .big = .ok (.str s)) := by
  refine ⟨?_, ?_, ?_, ?_, ?_, ?_, ?_, ?_, ?_⟩
  · intro n h
    rw [show decode_registers (encode_registers (.num n) .UINT16 bo wo)
        .UINT16 bo wo =
        (decode16 (payloadOf (regsFromBuffer bo wo (natToBytesBE 2 n)))
          bo).map .num from rfl,
      roundtrip_buffer2 bo wo n h]
    rfl
  · intro n h
    rw [show decode_registers (encode_registers (.num n) .UINT32 bo wo)
        .UINT32 bo wo =
        (decodeWide 4 (payloadOf (regsFromBuffer bo wo (natToBytesBE 4 n)))
          bo wo).map .num from rfl,
      roundtrip_buffer4 bo wo n h]
    rfl
  · intro n h
    rw [show decode_registers (encode_registers (.num n) .UINT64 bo wo)
        .UINT64 bo wo =
        (decodeWide 8 (payloadOf (regsFromBuffer bo wo (natToBytesBE 8 n)))
          bo wo).map .num from rfl,
      roundtrip_buffer8 bo wo n h]
    rfl
  · intro i h1 h2
    rw [show decode_registers (encode_registers (.inum i) .INT16 bo wo)
        .INT16 bo wo =
        (decode16 (payloadOf (regsFromBuffer bo wo
          (natToBytesBE 2 (intToBits 16 i)))) bo).map
          (fun v => Value.inum (toSigned 16 v)) from rfl,
      roundtrip_buffer2 bo wo (intToBits 16 i) (intToBits16_lt i)]
    show Except.ok (Value.inum (toSigned 16 (intToBits 16 i))) =
      Except.ok (Value.inum i)
    rw [toSigned_intToBits16 i h1 h2]
  · intro i h1 h2
    rw [show decode_registers (encode_registers (.inum i) .INT32 bo wo)
        .INT32 bo wo =
        (decodeWide 4 (payloadOf (regsFromBuffer bo wo
          (natToBytesBE 4 (intToBits 32 i)))) bo wo).map
          (fun v => Value.inum (toSigned 32 v)) from rfl,
      roundtrip_buffer4 bo wo (intToBits 32 i) (intToBits32_lt i)]
    show Except.ok (Value.inum (toSigned 32 (intToBits 32 i))) =
      Except.ok (Value.inum i)
    rw [toSigned_intToBits32 i h1 h2]
  · intro i h1 h2
    rw [show decode_registers (encode_registers (.inum i) .INT64 bo wo)
        .INT64 bo wo =
        (decodeWide 8 (payloadOf (regsFromBuffer bo wo
          (natToBytesBE 8 (intToBits 64 i)))) bo wo).map
          (fun v => Value.inum (toSigned 64 v)) from rfl,
      roundtrip_buffer8 bo wo (intToBits 64 i) (intToBits64_lt i)]
    show Except.ok (Value.inum (toSigned 64 (intToBits 64 i))) =
      Except.ok (Value.inum i)
    rw [toSigned_intToBits64 i h1 h2]
  · intro b h
    rw [show decode_registers (encode_registers (.f32 b) .FLOAT32 bo wo)
        .FLOAT32 bo wo =
        (decodeWide 4 (payloadOf (regsFromBuffer bo wo (natToBytesBE 4 b)))
          bo wo).map .f32 from rfl,
      roundtrip_buffer4 bo wo b h]
    rfl
  · intro b h
    rw [show decode_registers (encode_registers (.f64 b) .FLOAT64 bo wo)
        .FLOAT64 bo wo =
        (decodeWide 8 (payloadOf (regsFromBuffer bo wo (natToBytesBE 8 b)))
          bo wo).map .f64 from rfl,
      roundtrip_buffer8 bo wo b h]
    rfl
  · intro s hascii heven hh hr
    exact roundtrip_string s hascii heven hh hr

/-- Witness for C1 (amended): the spec scenarios — UINT32 value 65 and the
float bit pattern 0x41200000 (10.0) — round-trip in both word orders, and the
string "AB" round-trips with big orders. -/
theorem roundtrip_amended_witness :
    decode_registers (encode_registers (.num 65) .UINT32 .big .big) .UINT32
      .big .big = .ok (.num 65) ∧
    decode_registers (encode_registers (.f32 0x41200000) .FLOAT32 .big
      .little) .FLOAT32 .big .little = .ok (.f32 0x41200000) ∧
    decode_registers (encode_registers (.inum (-5)) .INT16 .little .big)
      .INT16 .little .big = .ok (.inum (-5)) ∧
    decode_registers (encode_registers (.str [65, 66]) .STRING .big .big)
      .STRING .big .big = .ok (.str [65, 66]) :=
  ⟨(roundtrip_amended .big .big).2.1 65 (by norm_num),
   (roundtrip_amended .big .little).2.2.2.2.2.2.1 0x41200000 (by norm_num),
   (roundtrip_amended .little .big).2.2.2.1 (-5) (by norm_num) (by norm_num),
   (roundtrip_amended .big .big).2.2.2.2.2.2.2.2 [65, 66] (by decide)
     (by decide) (by decide) (by decide)⟩

end ModbusRtu
